import Mathlib

/-!
Verification development for the KU-Talk notice backend.

Shallow embedding of `backend/search.py` (the BM25 lexical index) and of the
retrieval/aggregation/answer code of the `/chat` endpoint in `backend/api.py`.
Python strings are modelled as `String`, Python floats as `ℚ`, Python dicts as
insertion-ordered association lists, and the external `math.log` as an
explicit function parameter `log : ℚ → ℚ`.
-/

/-- Python `str.lower()`: lowercase every character.  CPython lowercases cased
letters; for the ASCII and Korean text appearing here `Char.toLower` agrees
with it (Hangul has no case). -/
def pyLower (s : String) : String := String.mk (s.data.map Char.toLower)

/-- Scanner for Python `str.count`: number of non-overlapping occurrences of
the (non-empty) pattern `p` in the character list, scanning left to right.
The `fuel` argument only makes the recursion structural; every step consumes
at least one character and exactly one unit of fuel, so with fuel equal to
the list length the zero-fuel case is never reached. -/
def pyCountL (p : List Char) : Nat → List Char → Nat
  | _, [] => 0
  | 0, _ => 0
  | fuel + 1, c :: rest =>
    if p.isPrefixOf (c :: rest) then 1 + pyCountL p fuel (List.drop (p.length - 1) rest)
    else pyCountL p fuel rest

/-- Python `s.count(p)` (an empty pattern yields `len(s) + 1`, as in CPython). -/
def pyCount (s p : String) : Nat :=
  if p.data.isEmpty then s.length + 1 else pyCountL p.data s.data.length s.data

/-- Python substring test `p in s`. -/
def pySubstr (s p : String) : Bool := decide (0 < pyCount s p)

/-- Characters matched by the regex `\w` (Unicode word characters).  Exact for
ASCII; every non-ASCII character is treated as a word character, which agrees
with Python on the Hangul corpora used here. -/
def wordChar (c : Char) : Bool := c.isAlphanum || c = '_' || decide (127 < c.toNat)

/-- Concatenation of the lists produced by `f` (Python comprehension helper). -/
def flatMapL {α β : Type} (f : α → List β) : List α → List β
  | [] => []
  | a :: l => f a ++ flatMapL f l

/-- Accumulating scanner behind `re.findall(r"\w+", s)`: maximal runs of word
characters, in order.  `cur` holds the current run reversed. -/
def wordTokensAux : List Char → List Char → List String
  | cur, [] => if cur.isEmpty then [] else [String.mk cur.reverse]
  | cur, c :: rest =>
    if wordChar c then wordTokensAux (c :: cur) rest
    else if cur.isEmpty then wordTokensAux [] rest
    else String.mk cur.reverse :: wordTokensAux [] rest

/-- `re.findall(r"\w+", s)`. -/
def wordTokens (s : String) : List String := wordTokensAux [] s.data

/-- The common Korean josa particles of `search.py` (`tokenize`). -/
def particles : List Char := ['이', '가', '은', '는', '을', '를', '야', '아']

/-- `search.py` `tokenize`: word tokens, lowercased; a token longer than two
characters ending in a particle additionally contributes its stripped form. -/
def tokenize (text : String) : List String :=
  flatMapL (fun t =>
    let lastOk := match t.data.getLast? with
      | some c => particles.contains c
      | none => false
    if decide (2 < t.length) && lastOk then [t, String.mk t.data.dropLast] else [t])
    ((wordTokens text).map pyLower)

/-- Association-list lookup (Python dict read). -/
def lookupA {β : Type} : List (String × β) → String → Option β
  | [], _ => none
  | kv :: rest, k => if kv.1 = k then some kv.2 else lookupA rest k

/-- Association-list write (Python dict assignment): overwrite in place, else
append, preserving insertion order. -/
def setA {β : Type} : List (String × β) → String → β → List (String × β)
  | [], k, v => [(k, v)]
  | kv :: rest, k, v => if kv.1 = k then (kv.1, v) :: rest else kv :: setA rest k v

/-- `defaultdict(int)` increment `d[k] += 1`. -/
def bumpA : List (String × Nat) → String → List (String × Nat)
  | [], k => [(k, 1)]
  | kv :: rest, k => if kv.1 = k then (kv.1, kv.2 + 1) :: rest else kv :: bumpA rest k

/-- Occurrence count of a key in a list of strings. -/
def countK (k : String) : List String → Nat
  | [] => 0
  | o :: rest => (if o = k then 1 else 0) + countK k rest

/-- Match `[^>]+>` at the start of the list (the part of the tag regex after
`<`): at least one non-`>` character followed by `>`.  Returns the suffix
after the closing `>`. -/
def tagSplit (rest : List Char) : Option (List Char) :=
  match rest.takeWhile (fun c => c ≠ '>') with
  | [] => none
  | _ :: _ =>
    match rest.dropWhile (fun c => c ≠ '>') with
    | '>' :: rem => some rem
    | _ => none

/-- `re.sub('<[^>]+>', ' ', s)` over a character list (`search.py` line 59):
each tag span is replaced by one space; a `<` with no matching close is kept.
Fuel as in `pyCountL`: each step consumes at least one character. -/
def stripTagsL : Nat → List Char → List Char
  | _, [] => []
  | 0, l => l
  | fuel + 1, c :: rest =>
    if c = '<' then
      match tagSplit rest with
      | some rem => ' ' :: stripTagsL fuel rem
      | none => c :: stripTagsL fuel rest
    else c :: stripTagsL fuel rest

/-- `search.py` markup stripping. -/
def stripTags (s : String) : String := String.mk (stripTagsL s.data.length s.data)

/-- `api.py` `strip_html`.  Modelled from the spec: the source delegates to the
external HTML parser BeautifulSoup (`get_text`); the spec defines searchable
text as the body with markup stripped, which we model as removal of `<...>`
tag spans.  Every concrete input in this file is markup-free, where both
renderings coincide. -/
def strip_html (s : String) : String := stripTags s

/-- Characters of the regex class `\s` (the whitespace forms used here). -/
def pySpace (c : Char) : Bool := c = ' ' || c = '\n' || c = '\t' || c = '\r'

/-- `re.split(r'(?<=[.!?])\s+', text)`: split at whitespace runs directly
preceded by sentence punctuation; the punctuation stays with its sentence.
Fuel as in `pyCountL`: each step consumes at least one character. -/
def splitSentsL : Nat → List Char → List Char → List String
  | _, acc, [] => [String.mk acc.reverse]
  | 0, acc, l => [String.mk (acc.reverse ++ l)]
  | fuel + 1, acc, c :: rest =>
    if (c = '.' || c = '!' || c = '?') &&
        (match rest with | r :: _ => pySpace r | [] => false) then
      String.mk (acc.reverse ++ [c]) :: splitSentsL fuel [] (rest.dropWhile pySpace)
    else splitSentsL fuel (c :: acc) rest

/-- Sentence splitting of `extract_relevant_sentences`. -/
def splitSents (s : String) : List String := splitSentsL s.data.length [] s.data

/-- One insertion step of a stable descending sort by `key`: the new element
goes after every element whose key is greater than or equal to its own, which
is exactly the placement `list.sort(key=..., reverse=True)` gives it. -/
def insDescBy {α β : Type} [LinearOrder β] (key : α → β) (x : α) : List α → List α
  | [] => [x]
  | y :: ys => if key x ≤ key y then y :: insDescBy key x ys else x :: y :: ys

/-- Python's stable sort with `reverse=True` on the given key: non-increasing
keys, ties keeping original order. -/
def sortDescBy {α β : Type} [LinearOrder β] (key : α → β) (l : List α) : List α :=
  l.foldl (fun acc x => insDescBy key x acc) []

/-- A parsed document file (`backend/data/parsed/*.json`): the fields the
retrieval code reads. -/
structure Parsed where
  title : String
  content : String
  ocr_text : String
  writer : String
deriving Repr, DecidableEq

/-- The state of `class BM25Index` (`search.py`). -/
structure BM25Index where
  N : Nat
  avgdl : ℚ
  doc_len : List (String × Nat)
  tf : List (String × List (String × Nat))
  df : List (String × Nat)
  docs : List (String × String)
deriving Repr, DecidableEq

/-- `BM25Index.__init__`. -/
def BM25Index.empty : BM25Index := ⟨0, 0, [], [], [], []⟩

/-- The text indexed per document (`search.py` line 59):
`title + ' ' + re.sub('<[^>]+>', ' ', content) + ' ' + ocr`. -/
def docText (p : Parsed) : String :=
  p.title ++ " " ++ stripTags p.content ++ " " ++ p.ocr_text

/-- The per-document term-frequency dict (`freqs` in `build`). -/
def mkFreqs (toks : List String) : List (String × Nat) := toks.foldl bumpA []

/-- The loop body of `BM25Index.build`, carrying the mutated index state plus
the local counters `N` and `total_len`.  A `none` entry models a file whose
JSON fails to load (`except: continue`). -/
def buildAux : BM25Index → Nat → Nat → List (String × Option Parsed) → BM25Index × Nat × Nat
  | st, n, tot, [] => (st, n, tot)
  | st, n, tot, (pid, mp) :: rest =>
    match mp with
    | none => buildAux st n tot rest
    | some p =>
      let toks := tokenize (docText p)
      let freqs := mkFreqs toks
      buildAux
        { st with
          docs := setA st.docs pid p.title,
          doc_len := setA st.doc_len pid toks.length,
          tf := setA st.tf pid freqs,
          df := List.foldl bumpA st.df (freqs.map Prod.fst) }
        (n + 1) (tot + toks.length) rest

/-- `BM25Index.build`: accumulates into the existing state (in particular the
existing `df` is bumped, never reset) and finally overwrites `N` and `avgdl`
with `total_len / N` (or `0.0` when `N == 0`). -/
def BM25Index.build (self : BM25Index) (corpus : List (String × Option Parsed)) : BM25Index :=
  let r := buildAux self 0 0 corpus
  { r.1 with N := r.2.1, avgdl := if r.2.1 = 0 then (0 : ℚ) else (r.2.2 : ℚ) / (r.2.1 : ℚ) }

/-- The idf weight of `BM25Index.score`:
`log(1 + (N - df + 0.5) / (df + 0.5))`, with `math.log` passed in as `log`.
The source precomputes this dict for `set(q_toks)`, so the `t not in idf`
guard in its loop never skips a query token. -/
def bm25Idf (log : ℚ → ℚ) (N : Nat) (df : List (String × Nat)) (t : String) : ℚ :=
  let d : ℚ := (((lookupA df t).getD 0 : Nat) : ℚ)
  log (1 + ((N : ℚ) - d + 1 / 2) / (d + 1 / 2))

/-- The per-document accumulation of `BM25Index.score`, with the two guards of
the source embedded verbatim: the length-normalization term is `0` when
`avgdl` is falsy, and a zero denominator is replaced by `1`. -/
def bm25DocScore (log : ℚ → ℚ) (self : BM25Index) (q_toks : List String) (k1 b : ℚ)
    (pf : String × List (String × Nat)) : ℚ :=
  let dl : ℚ := (((lookupA self.doc_len pf.1).getD 0 : Nat) : ℚ)
  q_toks.foldl (fun acc t =>
    let f : ℚ := (((lookupA pf.2 t).getD 0 : Nat) : ℚ)
    let denom : ℚ := f + k1 * (1 - b + b * (if self.avgdl = 0 then 0 else dl / self.avgdl))
    acc + bm25Idf log self.N self.df t * (f * (k1 + 1)) / (if denom = 0 then 1 else denom)) 0

/-- The `scores` dict of `BM25Index.score`: documents in `tf` insertion order,
keeping exactly those with a strictly positive accumulated score. -/
def bm25Entries (log : ℚ → ℚ) (self : BM25Index) (q_toks : List String) (k1 b : ℚ) :
    List (String × ℚ) :=
  self.tf.filterMap (fun pf =>
    let s := bm25DocScore log self q_toks k1 b pf
    if 0 < s then some (pf.1, s) else none)

/-- `BM25Index.score(query, k1, b, top_k)`: empty on an empty token list or an
empty index, else the positive-score documents sorted by Python's stable
`sorted(..., key=score, reverse=True)` and truncated to `top_k`. -/
def BM25Index.score (self : BM25Index) (log : ℚ → ℚ) (query : String) (k1 b : ℚ)
    (top_k : Nat) : List (String × ℚ) :=
  let q_toks := (tokenize query).filter (fun t => 0 < t.length)
  if q_toks.isEmpty || decide (self.N = 0) then []
  else (sortDescBy Prod.snd (bm25Entries log self q_toks k1 b)).take top_k

/-- `search.py` `get_index`: the module-global cache if present, else the
persisted snapshot if `load()` succeeds, else a fresh `build()`. -/
def get_index (cache snapshot : Option BM25Index)
    (corpus : List (String × Option Parsed)) : BM25Index :=
  match cache with
  | some idx => idx
  | none =>
    match snapshot with
    | some st => st
    | none => BM25Index.empty.build corpus

/-- A computable stand-in used only to instantiate the `log` parameter in
concrete evaluations.  It agrees with the natural logarithm exactly where our
concrete results depend on it: it is zero at `1`, strictly positive above `1`
and strictly negative on `(0, 1)`.  Universal theorems quantify over an
arbitrary `log` instead. -/
def logApprox (x : ℚ) : ℚ := (x - 1) / x

/-- A candidate tuple of the `chat` endpoint:
`(score, post_id, title, content[:400], content)`. -/
structure Cand where
  score : ℚ
  pid : String
  title : String
  snippet : String
  full : String
deriving Repr, DecidableEq

/-- The synonym map of `api.py`.  It is a *local variable of the `/search`
endpoint function* (lines 75-80); no module-level binding exists. -/
def SYNONYMS : List (String × List String) :=
  [("불이익", ["불이익", "제한", "불이익이", "불이익을", "불이익은"]),
   ("빌리", ["빌리", "빌려", "대여", "대여하다", "대여가능"]),
   ("빌릴", ["빌릴", "대여"]),
   ("누구", ["누구", "누구야", "누구인지", "누가"])]

/-- What the bare name `SYNONYMS` resolves to inside `chat` (line 153): the
name is local to `/search` and unbound in `chat`'s scope, so evaluating
`SYNONYMS.items()` raises `NameError`; modelled as `none`. -/
def chatSYNONYMS : Option (List (String × List String)) := none

/-- Tier 1 searchable content: stripped body, with the OCR text appended after
a newline when present (lines 144-149). -/
def chatContent (p : Parsed) : String :=
  let content := strip_html p.content
  if p.ocr_text = "" then content else content ++ "\n" ++ p.ocr_text

/-- The Tier 1 score of lines 151-163 as it would compute with a synonym map
`syns` in scope: `3 ×` occurrences of the lowercased query in the title plus
occurrences in the content; for each synonym key contained in the query,
`2 ×` title occurrences and body occurrences of each variant; for each query
token longer than one character, `+2` on a title hit plus its body count. -/
def tier1ScoreWith (syns : List (String × List String)) (p : Parsed) (ql : String) : Nat :=
  let content := chatContent p
  let s0 := 3 * pyCount (pyLower p.title) ql + pyCount (pyLower content) ql
  let s1 := syns.foldl (fun acc kv =>
    if pySubstr ql kv.1 then
      kv.2.foldl (fun a v => a + 2 * pyCount (pyLower p.title) v + pyCount (pyLower content) v) acc
    else acc) s0
  (wordTokens ql).foldl (fun acc tok =>
    if 1 < tok.length then
      acc + (if pySubstr (pyLower p.title) tok then 2 else 0) + pyCount (pyLower content) tok
    else acc) s1

/-- The Tier 1 per-document computation as the code actually runs: the synonym
loop evaluates the unbound name `SYNONYMS` and raises `NameError` before the
candidate can be appended; the per-document `except Exception: continue`
swallows it. -/
def tier1DocResult (p : Parsed) (ql : String) : Except Unit Nat :=
  match chatSYNONYMS with
  | none => Except.error ()
  | some syns => Except.ok (tier1ScoreWith syns p ql)

/-- Tier 1 of `chat` (lines 137-167): scan the corpus, skip documents whose
processing raised, keep those with a positive score. -/
def chatTier1 (corpus : List (String × Option Parsed)) (ql : String) : List Cand :=
  corpus.filterMap (fun e =>
    match e.2 with
    | none => none
    | some p =>
      match tier1DocResult p ql with
      | Except.error _ => none
      | Except.ok score =>
        if 0 < score then
          some ⟨(score : ℚ), e.1, p.title, (chatContent p).take 400, chatContent p⟩
        else none)

/-- The documents Tier 2 (lines 170-182) appends: any document containing some
query token longer than two characters in its lowercased body or title gets
the fixed score 1.  (Tier 2 does not consult the OCR text.) -/
def tier2adds (corpus : List (String × Option Parsed)) (ql : String) : List Cand :=
  corpus.filterMap (fun e =>
    match e.2 with
    | none => none
    | some p =>
      let content := strip_html p.content
      if (wordTokens ql).any (fun tok =>
          decide (2 < tok.length) &&
            (pySubstr (pyLower content) tok || pySubstr (pyLower p.title) tok)) then
        some ⟨1, e.1, p.title, content.take 400, content⟩
      else none)

/-- Tier 2 runs only when the candidate list is still empty. -/
def chatTier2 (cands : List Cand) (corpus : List (String × Option Parsed)) (ql : String) :
    List Cand :=
  if cands.isEmpty then cands ++ tier2adds corpus ql else cands

/-- The "who"-style interrogative markers of Tier 3 (line 185). -/
def whoMarkers : List String := ["누구", "누가", "누구야"]

/-- The documents Tier 3 (lines 185-203) appends when the query contains a
"who" marker: per document and per query token, score 2 for a title hit,
1 for a body hit, 3 for a hit in the writer field — with no check against
candidates already present.  Title and body are stored lowercased here. -/
def tier3adds (corpus : List (String × Option Parsed)) (ql : String) : List Cand :=
  if whoMarkers.any (fun x => pySubstr ql x) then
    flatMapL (fun e =>
      match e.2 with
      | none => []
      | some p =>
        let title := pyLower p.title
        let content := pyLower (strip_html p.content)
        flatMapL (fun tok =>
          (if decide (1 < tok.length) && pySubstr title tok then
            ([⟨2, e.1, title, content.take 400, content⟩] : List Cand) else []) ++
          (if decide (1 < tok.length) && pySubstr content tok then
            ([⟨1, e.1, title, content.take 400, content⟩] : List Cand) else []) ++
          (if decide (p.writer ≠ "") && pySubstr (pyLower p.writer) tok then
            ([⟨3, e.1, title, content.take 400, content⟩] : List Cand) else []))
          (wordTokens ql)) corpus
  else []

/-- Tier 3 runs unconditionally and only ever appends. -/
def chatTier3 (cands : List Cand) (corpus : List (String × Option Parsed)) (ql : String) :
    List Cand :=
  cands ++ tier3adds corpus ql

/-- `candidates.sort(key=lambda x: x[0], reverse=True); chosen = candidates[:top_k]`. -/
def chatChosen (cands : List Cand) (top_k : Nat) : List Cand :=
  (sortDescBy Cand.score cands).take top_k

/-- Reading `PARSED_DIR/{pid}.json`: `none` when the file is missing or its
JSON fails to load (both end in `except: continue`). -/
def lookupParsed (dir : List (String × Option Parsed)) (pid : String) : Option Parsed :=
  match lookupA dir pid with
  | some (some p) => some p
  | _ => none

/-- The full text Tiers 4/5 build for a fetched document:
`strip_html(content) + '\n' + ocr_text`. -/
def tier4Full (p : Parsed) : String := strip_html p.content ++ "\n" ++ p.ocr_text

/-- Tier 4 (lines 207-234): supplement `chosen` from the BM25 results.  The
source shape-sniffs each item (`isinstance(item[0], str)`), correctly
normalising to `(pid, score)`; an item whose `doc_id` is already present in
the (growing) `chosen` list is skipped. -/
def chatTier4Step (dir : List (String × Option Parsed)) (ch : List Cand)
    (item : String × ℚ) : List Cand :=
  if ch.any (fun c => c.pid == item.1) then ch
  else
    match lookupParsed dir item.1 with
    | none => ch
    | some p => ch ++ [⟨item.2, item.1, p.title, (tier4Full p).take 400, tier4Full p⟩]

/-- The loop over the BM25 items. -/
def chatTier4 (chosen : List Cand) (dir : List (String × Option Parsed))
    (bm : List (String × ℚ)) : List Cand :=
  bm.foldl (chatTier4Step dir) chosen

/-- The filename stem Python computes in Tier 5 from the value it calls `pid`.
Python formats the float decimally (e.g. `2.5`); we render the rational
(`5/2`).  The only fact any theorem uses is that this rendering of a score is
not one of the document ids of the concrete store. -/
def ratName (x : ℚ) : String := toString x.num ++ "/" ++ toString x.den

/-- Python `float(s)` on the strings that can reach it here: parses a decimal
digit string, raises (`none`) otherwise. -/
def pyFloatParse (s : String) : Option ℚ := s.toNat?.map (fun n => (n : ℚ))

/-- Tier 5 (lines 236-252).  The source iterates `for score, pid in bm` over
BM25 results that are `(pid, score)` pairs, so `score` is bound to the
document-id string and `pid` to the numeric score: the file it then opens is
named after the *score*, and the value passed to `float(...)` is the *id*.
Entries whose (score-named) file cannot be opened are skipped. -/
def chatTier5 (dir : List (String × Option Parsed)) (bm : List (String × ℚ)) : List Cand :=
  bm.filterMap (fun item =>
    let score := item.1
    let pid := item.2
    match lookupParsed dir (ratName pid) with
    | none => none
    | some p =>
      match pyFloatParse score with
      | none => none
      | some s => some ⟨s, ratName pid, p.title, (tier4Full p).take 400, tier4Full p⟩)

/-- `extract_relevant_sentences(text, q, max_sentences)` (lines 111-124). -/
def extract_relevant_sentences (text q : String) (max_sentences : Nat) : List String :=
  let q_tokens := ((wordTokens q).filter (fun t => 2 < t.length)).map pyLower
  if q_tokens.isEmpty then []
  else
    let sents := splitSents text
    let scored := sents.filterMap (fun s =>
      let low := pyLower s
      let sc := q_tokens.countP (fun t => pySubstr low t)
      if 0 < sc then some (sc, s) else none)
    ((sortDescBy Prod.fst scored).take max_sentences).map Prod.snd

/-- A Result Source dict: `{id, title, url, score, excerpt}`. -/
structure Src where
  id : String
  title : String
  url : Option String
  score : Int
  excerpt : String
deriving Repr, DecidableEq

/-- Python `int()` on a float: truncation toward zero. -/
def pyInt (q : ℚ) : Int := if q < 0 then q.ceil else q.floor

/-- The excerpt chosen per candidate (lines 261-265): the extracted sentences
joined by single spaces, else the stored snippet. -/
def candExcerpt (q : String) (c : Cand) : String :=
  let sent := extract_relevant_sentences c.full q 3
  if sent.isEmpty then c.snippet else String.intercalate " " sent

/-- The `sources` list assembled from `chosen` (lines 260-268); the `url`
comes from the index metadata `idx.get(post_id, {}).get("url")`. -/
def mkSources (meta : List (String × Option String)) (q : String) (chosen : List Cand) :
    List Src :=
  chosen.map (fun c => ⟨c.pid, c.title, (lookupA meta c.pid).join, pyInt c.score, candExcerpt q c⟩)

/-- The `answer_parts` entries `f"[{title}] {excerpt}"` (line 269). -/
def answerParts (q : String) (chosen : List Cand) : List String :=
  chosen.map (fun c => "[" ++ c.title ++ "] " ++ candExcerpt q c)

/-- Python truthiness of the `url` field: `None` and `""` are falsy. -/
def truthy (u : Option String) : Option String :=
  match u with
  | none => none
  | some s => if s = "" then none else some s

/-- The dedup loop of lines 270-281: walk the sources in order with a `seen`
set, dropping falsy urls and urls already seen. -/
def dedupeAux (seen : List String) : List Src → List Src
  | [] => []
  | s :: rest =>
    match truthy s.url with
    | none => dedupeAux seen rest
    | some u => if u ∈ seen then dedupeAux seen rest else s :: dedupeAux (u :: seen) rest

/-- `sources` after deduplication (kept in full for the generation context). -/
def dedupeSources (l : List Src) : List Src := dedupeAux [] l

/-- `display_sources = sources[:2]` (line 285). -/
def displaySources (l : List Src) : List Src := (dedupeSources l).take 2

/-- Match the *tail* of the url-stripping pattern after `http`/`https`: inside
the raw string `r"https?:\\/\\/\\S+"` every `\\` is two characters, so the
compiled regex is `https?:` `\\` `/` `\\` `/` `\\` `S+` — a colon, a literal
backslash, a slash, a literal backslash, a slash, a literal backslash, then
one or more literal capital `S` characters (the third doubled backslash
escapes the backslash, leaving a bare `S`, not the non-space class). -/
def matchColonPart (l : List Char) : Option (List Char) :=
  match l with
  | ':' :: '\\' :: '/' :: '\\' :: '/' :: '\\' :: rest =>
    match rest.takeWhile (fun c => c = 'S') with
    | [] => none
    | _ :: _ => some (rest.dropWhile (fun c => c = 'S'))
  | _ => none

/-- Match the whole compiled pattern (`https?:` `\\` `/` `\\` `/` `\\` `S+`)
at the start of the list, returning the suffix after the match. -/
def matchBadUrl : List Char → Option (List Char)
  | 'h' :: 't' :: 't' :: 'p' :: 's' :: rest => matchColonPart rest
  | 'h' :: 't' :: 't' :: 'p' :: rest => matchColonPart rest
  | _ => none

/-- `re.sub(r"https?:\\/\\/\\S+", "", s)` (lines 313, 356, 425): left-to-right
scan deleting every match of the (backslash-laden) pattern.  Fuel as in
`pyCountL`: a match consumes at least eleven characters, a non-match one. -/
def stripUrlsL : Nat → List Char → List Char
  | _, [] => []
  | 0, l => l
  | fuel + 1, c :: rest =>
    match matchBadUrl (c :: rest) with
    | some rem => stripUrlsL fuel rem
    | none => c :: stripUrlsL fuel rest

/-- The `clean` step of the no-key answer path (line 313). -/
def cleanUrls (s : String) : String := String.mk (stripUrlsL s.data.length s.data)

/-- The response of the no-generation path (lines 258-314, nonempty
`answer_parts` branch, no API key configured):
`{"answer": clean, "sources": display_sources, "llm": False}`. -/
def chatNoKeyResponse (meta : List (String × Option String)) (q : String)
    (chosen : List Cand) : String × List Src × Bool :=
  (cleanUrls (String.intercalate "\n\n" (answerParts q chosen)),
   displaySources (mkSources meta q chosen),
   false)

/-- Keys of record-valued corpus pairs produced by a successful load. -/
def pairsOf {β : Type} (f : Parsed → β) (corpus : List (String × Option Parsed)) :
    List (String × β) :=
  corpus.filterMap (fun e =>
    match e.2 with
    | some p => some (e.1, f p)
    | none => none)

/-- The sequence of `df` bumps a build performs: for each readable document,
the keys of its term-frequency dict, in order. -/
def termOps (corpus : List (String × Option Parsed)) : List String :=
  flatMapL (fun e =>
    match e.2 with
    | some p => (mkFreqs (tokenize (docText p))).map Prod.fst
    | none => []) corpus

/-- Replaying a list of dict assignments. -/
def setFold {β : Type} (d : List (String × β)) (ps : List (String × β)) : List (String × β) :=
  ps.foldl (fun a kv => setA a kv.1 kv.2) d

/-- Total token count over the documents a build indexes. -/
def corpusTokens (corpus : List (String × Option Parsed)) : Nat :=
  (corpus.map (fun e =>
    match e.2 with
    | some p => (tokenize (docText p)).length
    | none => 0)).sum

/-- The corpus of spec §8's first scenario (keyword query "휴학"). -/
def specDocA : Parsed := ⟨"휴학 신청 방법", "휴학은 학과 사무실에서 신청", "", ""⟩

/-- A one-document corpus containing `specDocA`. -/
def specCorpusA : List (String × Option Parsed) := [("a1", some specDocA)]

/-- Concrete corpus for the Tier 3 duplication counterexample. -/
def c2corpus : List (String × Option Parsed) := [("d1", some ⟨"", "관리자 안내", "", ""⟩)]

/-- Two identical documents whose ids are in descending order in directory
(and hence `tf`) order. -/
def c3corpus : List (String × Option Parsed) :=
  [("b", some ⟨"z z", "", "", ""⟩), ("a", some ⟨"z z", "", "", ""⟩)]

/-- A parsed store containing exactly the document id "123". -/
def c4dir : List (String × Option Parsed) := [("123", some ⟨"제목", "본문", "", ""⟩)]

/-- A one-document corpus with a single token, for the rebuild counterexample. -/
def c5corpus : List (String × Option Parsed) := [("p", some ⟨"w", "", "", ""⟩)]

/-- A chosen candidate whose full text contains a raw `https://` URL. -/
def c9chosen : List Cand := [⟨1, "p1", "공지", "안내문서", "안내문서 https://cse.kku.ac.kr 참고"⟩]

/-- Index metadata for `c9chosen`. -/
def c9meta : List (String × Option String) := [("p1", some "https://cse.kku.ac.kr/post/1")]

theorem mem_insDescBy {α β : Type} [LinearOrder β] (key : α → β) (x a : α) (l : List α) :
    a ∈ insDescBy key x l ↔ a = x ∨ a ∈ l := by
  induction l with
  | nil => simp [insDescBy]
  | cons y ys ih =>
    simp only [insDescBy]
    split
    · simp only [List.mem_cons, ih]
      tauto
    · simp only [List.mem_cons]

theorem pairwise_insDescBy {α β : Type} [LinearOrder β] (key : α → β) (x : α) (l : List α)
    (h : l.Pairwise (fun a c => key c ≤ key a)) :
    (insDescBy key x l).Pairwise (fun a c => key c ≤ key a) := by
  induction l with
  | nil => simp [insDescBy]
  | cons y ys ih =>
    rw [List.pairwise_cons] at h
    obtain ⟨hy, hys⟩ := h
    simp only [insDescBy]
    split
    · rename_i hxy
      rw [List.pairwise_cons]
      refine ⟨?_, ih hys⟩
      intro a ha
      rw [mem_insDescBy] at ha
      rcases ha with rfl | ha
      · exact hxy
      · exact hy a ha
    · rename_i hxy
      push_neg at hxy
      rw [List.pairwise_cons]
      constructor
      · intro a ha
        simp only [List.mem_cons] at ha
        rcases ha with rfl | ha
        · exact le_of_lt hxy
        · exact le_trans (hy a ha) (le_of_lt hxy)
      · exact List.pairwise_cons.mpr ⟨hy, hys⟩

theorem pairwise_sortAux {α β : Type} [LinearOrder β] (key : α → β) :
    ∀ (l acc : List α), acc.Pairwise (fun a c => key c ≤ key a) →
      (l.foldl (fun acc x => insDescBy key x acc) acc).Pairwise (fun a c => key c ≤ key a)
  | [], _, h => h
  | x :: xs, acc, h => pairwise_sortAux key xs _ (pairwise_insDescBy key x acc h)

theorem pairwise_sortDescBy {α β : Type} [LinearOrder β] (key : α → β) (l : List α) :
    (sortDescBy key l).Pairwise (fun a c => key c ≤ key a) :=
  pairwise_sortAux key l [] List.Pairwise.nil

theorem mem_sortDescBy {α β : Type} [LinearOrder β] (key : α → β) (l : List α) (a : α) :
    a ∈ sortDescBy key l ↔ a ∈ l := by
  suffices h : ∀ (l acc : List α) (x : α),
      x ∈ l.foldl (fun acc y => insDescBy key y acc) acc ↔ x ∈ acc ∨ x ∈ l by
    have := h l [] a
    simpa [sortDescBy] using this
  intro l
  induction l with
  | nil =>
    intro acc x
    simp
  | cons y ys ih =>
    intro acc x
    rw [List.foldl_cons, ih, mem_insDescBy]
    simp only [List.mem_cons]
    tauto

theorem dedupeAux_cons_none (seen : List String) (x : Src) (rest : List Src)
    (h : truthy x.url = none) : dedupeAux seen (x :: rest) = dedupeAux seen rest := by
  simp [dedupeAux, h]

theorem dedupeAux_cons_seen (seen : List String) (x : Src) (rest : List Src) (u : String)
    (h : truthy x.url = some u) (hm : u ∈ seen) :
    dedupeAux seen (x :: rest) = dedupeAux seen rest := by
  simp [dedupeAux, h, hm]

theorem dedupeAux_cons_new (seen : List String) (x : Src) (rest : List Src) (u : String)
    (h : truthy x.url = some u) (hm : u ∉ seen) :
    dedupeAux seen (x :: rest) = x :: dedupeAux (u :: seen) rest := by
  simp [dedupeAux, h, hm]

theorem dedupeAux_sublist : ∀ (l : List Src) (seen : List String),
    List.Sublist (dedupeAux seen l) l
  | [], _ => by simp [dedupeAux]
  | x :: rest, seen => by
    cases htr : truthy x.url with
    | none =>
      rw [dedupeAux_cons_none seen x rest htr]
      exact (dedupeAux_sublist rest seen).cons x
    | some u =>
      by_cases hm : u ∈ seen
      · rw [dedupeAux_cons_seen seen x rest u htr hm]
        exact (dedupeAux_sublist rest seen).cons x
      · rw [dedupeAux_cons_new seen x rest u htr hm]
        exact (dedupeAux_sublist rest (u :: seen)).cons₂ x

theorem dedupeAux_kept_truthy : ∀ (l : List Src) (seen : List String) (s : Src),
    s ∈ dedupeAux seen l → (truthy s.url).isSome = true
  | [], _, s => by simp [dedupeAux]
  | x :: rest, seen, s => by
    cases htr : truthy x.url with
    | none =>
      rw [dedupeAux_cons_none seen x rest htr]
      exact dedupeAux_kept_truthy rest seen s
    | some u =>
      by_cases hm : u ∈ seen
      · rw [dedupeAux_cons_seen seen x rest u htr hm]
        exact dedupeAux_kept_truthy rest seen s
      · rw [dedupeAux_cons_new seen x rest u htr hm]
        intro hs
        rcases List.mem_cons.mp hs with rfl | hs
        · simp [htr]
        · exact dedupeAux_kept_truthy rest (u :: seen) s hs

theorem dedupeAux_not_seen : ∀ (l : List Src) (seen : List String) (s : Src) (u : String),
    s ∈ dedupeAux seen l → truthy s.url = some u → u ∉ seen
  | [], _, s, u => by simp [dedupeAux]
  | x :: rest, seen, s, u => by
    cases htr : truthy x.url with
    | none =>
      rw [dedupeAux_cons_none seen x rest htr]
      exact dedupeAux_not_seen rest seen s u
    | some w =>
      by_cases hm : w ∈ seen
      · rw [dedupeAux_cons_seen seen x rest w htr hm]
        exact dedupeAux_not_seen rest seen s u
      · rw [dedupeAux_cons_new seen x rest w htr hm]
        intro hs hu
        rcases List.mem_cons.mp hs with rfl | hs
        · rw [htr] at hu
          cases hu
          exact hm
        · intro hmem
          exact dedupeAux_not_seen rest (w :: seen) s u hs hu (List.mem_cons_of_mem w hmem)

theorem dedupeAux_urls_nodup : ∀ (l : List Src) (seen : List String),
    ((dedupeAux seen l).map (fun s => truthy s.url)).Nodup
  | [], _ => by simp [dedupeAux]
  | x :: rest, seen => by
    cases htr : truthy x.url with
    | none =>
      rw [dedupeAux_cons_none seen x rest htr]
      exact dedupeAux_urls_nodup rest seen
    | some u =>
      by_cases hm : u ∈ seen
      · rw [dedupeAux_cons_seen seen x rest u htr hm]
        exact dedupeAux_urls_nodup rest seen
      · rw [dedupeAux_cons_new seen x rest u htr hm]
        simp only [List.map_cons, List.nodup_cons]
        constructor
        · intro hmem
          rcases List.mem_map.mp hmem with ⟨s, hs, heq⟩
          rw [htr] at heq
          exact dedupeAux_not_seen rest (u :: seen) s u hs heq (List.mem_cons_self u seen)
        · exact dedupeAux_urls_nodup rest (u :: seen)

theorem dedupeAux_filter_seen : ∀ (l : List Src) (u : String) (seen : List String), u ∈ seen →
    (dedupeAux seen l).filter (fun s => decide (truthy s.url = some u)) = []
  | [], _, _ => by simp [dedupeAux]
  | x :: rest, u, seen => by
    intro hu
    cases htr : truthy x.url with
    | none =>
      rw [dedupeAux_cons_none seen x rest htr]
      exact dedupeAux_filter_seen rest u seen hu
    | some w =>
      by_cases hm : w ∈ seen
      · rw [dedupeAux_cons_seen seen x rest w htr hm]
        exact dedupeAux_filter_seen rest u seen hu
      · rw [dedupeAux_cons_new seen x rest w htr hm, List.filter_cons]
        have hne : ¬ (truthy x.url = some u) := by
          rw [htr]
          intro hcontr
          cases hcontr
          exact hm hu
        simp only [decide_eq_false hne, Bool.false_eq_true, if_false]
        exact dedupeAux_filter_seen rest u (w :: seen) (List.mem_cons_of_mem w hu)

theorem dedupeAux_filter_take : ∀ (l : List Src) (u : String) (seen : List String), u ∉ seen →
    (dedupeAux seen l).filter (fun s => decide (truthy s.url = some u)) =
      (l.filter (fun s => decide (truthy s.url = some u))).take 1
  | [], _, _ => by simp [dedupeAux]
  | x :: rest, u, seen => by
    intro hu
    cases htr : truthy x.url with
    | none =>
      have hne : ¬ (truthy x.url = some u) := by
        rw [htr]
        exact fun h => Option.noConfusion h
      rw [dedupeAux_cons_none seen x rest htr, List.filter_cons]
      simp only [decide_eq_false hne, Bool.false_eq_true, if_false]
      exact dedupeAux_filter_take rest u seen hu
    | some w =>
      by_cases hm : w ∈ seen
      · have hne : ¬ (truthy x.url = some u) := by
          rw [htr]
          intro hcontr
          cases hcontr
          exact hu hm
        rw [dedupeAux_cons_seen seen x rest w htr hm, List.filter_cons]
        simp only [decide_eq_false hne, Bool.false_eq_true, if_false]
        exact dedupeAux_filter_take rest u seen hu
      · by_cases hwu : w = u
        · subst hwu
          rw [dedupeAux_cons_new seen x rest w htr hm, List.filter_cons, List.filter_cons]
          have hyes : decide (truthy x.url = some w) = true := decide_eq_true htr
          simp only [hyes, if_true]
          rw [dedupeAux_filter_seen rest w (w :: seen) (List.mem_cons_self w seen)]
          simp
        · have hne : ¬ (truthy x.url = some u) := by
            rw [htr]
            intro hcontr
            cases hcontr
            exact hwu rfl
          rw [dedupeAux_cons_new seen x rest w htr hm, List.filter_cons, List.filter_cons]
          simp only [decide_eq_false hne, Bool.false_eq_true, if_false]
          refine dedupeAux_filter_take rest u (w :: seen) ?_
          intro hmem
          rcases List.mem_cons.mp hmem with h1 | h2
          · exact hwu h1.symm
          · exact hu h2

theorem lookupA_eq_none {β : Type} : ∀ (d : List (String × β)) (k : String),
    lookupA d k = none ↔ k ∉ d.map Prod.fst
  | [], k => by simp [lookupA]
  | kv :: rest, k => by
    by_cases h : kv.1 = k
    · simp [lookupA, h]
    · simp [lookupA, h, lookupA_eq_none rest k, Ne.symm h]

theorem setA_append_absent {β : Type} : ∀ (d : List (String × β)) (k : String) (v : β),
    k ∉ d.map Prod.fst → setA d k v = d ++ [(k, v)]
  | [], k, v => by simp [setA]
  | kv :: rest, k, v => by
    intro h
    simp only [List.map_cons, List.mem_cons] at h
    push_neg at h
    obtain ⟨h1, h2⟩ := h
    simp [setA, Ne.symm h1, setA_append_absent rest k v h2]

theorem setFold_new {β : Type} : ∀ (ps d : List (String × β)),
    (∀ k ∈ ps.map Prod.fst, k ∉ d.map Prod.fst) → (ps.map Prod.fst).Nodup →
    setFold d ps = d ++ ps
  | [], d => by simp [setFold]
  | (k, v) :: ps, d => by
    intro hdisj hnd
    simp only [List.map_cons, List.nodup_cons] at hnd
    obtain ⟨hk, hnd⟩ := hnd
    have hkd : k ∉ d.map Prod.fst := hdisj k (by simp)
    have step : setFold d ((k, v) :: ps) = setFold (setA d k v) ps := rfl
    rw [step, setA_append_absent d k v hkd]
    rw [setFold_new ps (d ++ [(k, v)]) ?_ hnd]
    · simp
    · intro k2 hk2 hmem
      rw [List.map_append] at hmem
      rcases List.mem_append.mp hmem with hm1 | hm2
      · exact hdisj k2 (List.mem_cons_of_mem _ hk2) hm1
      · simp only [List.map_cons, List.map_nil, List.mem_singleton] at hm2
        subst hm2
        exact hk hk2

theorem setA_id {β : Type} : ∀ (d : List (String × β)) (k : String) (v : β),
    lookupA d k = some v → setA d k v = d
  | [], k, v => by simp [lookupA]
  | kv :: rest, k, v => by
    by_cases h : kv.1 = k
    · intro hl
      obtain ⟨k1, v1⟩ := kv
      subst h
      simp only [lookupA, if_pos rfl] at hl
      injection hl with hv
      subst hv
      simp [setA]
    · intro hl
      simp only [lookupA, if_neg h] at hl
      simp [setA, h, setA_id rest k v hl]

theorem setFold_id {β : Type} : ∀ (ps d : List (String × β)),
    (∀ kv ∈ ps, lookupA d kv.1 = some kv.2) → setFold d ps = d
  | [], d => by simp [setFold]
  | (k, v) :: ps, d => by
    intro h
    have h1 := h (k, v) (by simp)
    have step : setFold d ((k, v) :: ps) = setFold (setA d k v) ps := rfl
    rw [step, setA_id d k v h1]
    exact setFold_id ps d (fun kv hkv => h kv (List.mem_cons_of_mem _ hkv))

theorem lookupA_mem_nodup {β : Type} : ∀ (d : List (String × β)) (kv : String × β),
    kv ∈ d → (d.map Prod.fst).Nodup → lookupA d kv.1 = some kv.2
  | [], kv => by simp
  | x :: rest, kv => by
    intro hmem hnd
    simp only [List.map_cons, List.nodup_cons] at hnd
    obtain ⟨hx, hnd⟩ := hnd
    rcases List.mem_cons.mp hmem with rfl | hmem
    · simp [lookupA]
    · have hne : x.1 ≠ kv.1 := by
        intro he
        refine hx ?_
        rw [he]
        exact List.mem_map.mpr ⟨kv, hmem, rfl⟩
      simp only [lookupA, if_neg hne]
      exact lookupA_mem_nodup rest kv hmem hnd

theorem pairsOf_keys_sublist {β : Type} (f : Parsed → β) :
    ∀ (corpus : List (String × Option Parsed)),
    List.Sublist ((pairsOf f corpus).map Prod.fst) (corpus.map Prod.fst)
  | [] => by simp [pairsOf]
  | (pid, none) :: rest => by
    have h : pairsOf f ((pid, none) :: rest) = pairsOf f rest := by
      simp [pairsOf, List.filterMap_cons]
    rw [h]
    exact (pairsOf_keys_sublist f rest).cons pid
  | (pid, some p) :: rest => by
    have h : pairsOf f ((pid, some p) :: rest) = (pid, f p) :: pairsOf f rest := by
      simp [pairsOf, List.filterMap_cons]
    rw [h]
    simp only [List.map_cons]
    exact (pairsOf_keys_sublist f rest).cons₂ pid

theorem lookupD_bumpA : ∀ (d : List (String × Nat)) (k k2 : String),
    (lookupA (bumpA d k) k2).getD 0 = (lookupA d k2).getD 0 + (if k2 = k then 1 else 0)
  | [], k, k2 => by
    by_cases h : k2 = k
    · simp [bumpA, lookupA, h]
    · simp [bumpA, lookupA, h, Ne.symm h]
  | kv :: rest, k, k2 => by
    by_cases h1 : kv.1 = k
    · by_cases h2 : kv.1 = k2
      · have hk : k2 = k := by rw [← h2, h1]
        simp [bumpA, lookupA, h1, h2, hk]
      · have hk : ¬ k2 = k := by
          intro he
          exact h2 (by rw [h1, he])
        have hne : ¬ k = k2 := fun he => hk he.symm
        simp [bumpA, lookupA, h1, h2, hk, hne]
    · by_cases h2 : kv.1 = k2
      · have hk : ¬ k2 = k := by
          intro he
          exact h1 (by rw [h2, he])
        simp [bumpA, lookupA, h1, h2, hk]
      · simp [bumpA, lookupA, h1, h2, lookupD_bumpA rest k k2]

theorem lookupD_bumpFold : ∀ (ops : List String) (d : List (String × Nat)) (k : String),
    (lookupA (List.foldl bumpA d ops) k).getD 0 = (lookupA d k).getD 0 + countK k ops
  | [], d, k => by simp [countK]
  | o :: ops, d, k => by
    rw [List.foldl_cons, lookupD_bumpFold ops (bumpA d o) k, lookupD_bumpA d o k]
    by_cases h : k = o
    · simp [countK, h]
      omega
    · simp [countK, h, Ne.symm h]

theorem lookupA_none_bumpA : ∀ (d : List (String × Nat)) (k k2 : String),
    (lookupA (bumpA d k) k2 = none ↔ lookupA d k2 = none ∧ ¬ k2 = k)
  | [], k, k2 => by
    by_cases h : k2 = k
    · simp [bumpA, lookupA, h]
    · simp [bumpA, lookupA, h, Ne.symm h]
  | kv :: rest, k, k2 => by
    by_cases h1 : kv.1 = k
    · by_cases h2 : kv.1 = k2
      · have hk : k2 = k := by rw [← h2, h1]
        simp [bumpA, lookupA, h1, h2, hk]
      · have hk : ¬ k2 = k := by
          intro he
          exact h2 (by rw [h1, he])
        have hne : ¬ k = k2 := fun he => hk he.symm
        simp [bumpA, lookupA, h1, h2, hk, hne]
    · by_cases h2 : kv.1 = k2
      · have hk : ¬ k2 = k := by
          intro he
          exact h1 (by rw [h2, he])
        simp [bumpA, lookupA, h1, h2, hk]
      · simp [bumpA, lookupA, h1, h2, lookupA_none_bumpA rest k k2]

theorem lookupA_none_bumpFold : ∀ (ops : List String) (d : List (String × Nat)) (k : String),
    (lookupA (List.foldl bumpA d ops) k = none ↔ lookupA d k = none ∧ countK k ops = 0)
  | [], d, k => by simp [countK]
  | o :: ops, d, k => by
    rw [List.foldl_cons, lookupA_none_bumpFold ops (bumpA d o) k, lookupA_none_bumpA d o k]
    by_cases h : k = o
    · simp [countK, h]
    · simp [countK, h, Ne.symm h]

theorem buildAux_doc_len : ∀ (corpus : List (String × Option Parsed)) (st : BM25Index) (n t : Nat),
    (buildAux st n t corpus).1.doc_len =
      setFold st.doc_len (pairsOf (fun p => (tokenize (docText p)).length) corpus)
  | [], st, n, t => by simp [buildAux, setFold, pairsOf]
  | (pid, none) :: rest, st, n, t => by
    show (buildAux st n t rest).1.doc_len = _
    rw [buildAux_doc_len rest st n t]
    simp [pairsOf, List.filterMap_cons]
  | (pid, some p) :: rest, st, n, t => by
    simp only [buildAux]
    rw [buildAux_doc_len rest]
    simp [pairsOf, List.filterMap_cons, setFold]

theorem buildAux_tf : ∀ (corpus : List (String × Option Parsed)) (st : BM25Index) (n t : Nat),
    (buildAux st n t corpus).1.tf =
      setFold st.tf (pairsOf (fun p => mkFreqs (tokenize (docText p))) corpus)
  | [], st, n, t => by simp [buildAux, setFold, pairsOf]
  | (pid, none) :: rest, st, n, t => by
    show (buildAux st n t rest).1.tf = _
    rw [buildAux_tf rest st n t]
    simp [pairsOf, List.filterMap_cons]
  | (pid, some p) :: rest, st, n, t => by
    simp only [buildAux]
    rw [buildAux_tf rest]
    simp [pairsOf, List.filterMap_cons, setFold]

theorem buildAux_docs : ∀ (corpus : List (String × Option Parsed)) (st : BM25Index) (n t : Nat),
    (buildAux st n t corpus).1.docs = setFold st.docs (pairsOf (fun p => p.title) corpus)
  | [], st, n, t => by simp [buildAux, setFold, pairsOf]
  | (pid, none) :: rest, st, n, t => by
    show (buildAux st n t rest).1.docs = _
    rw [buildAux_docs rest st n t]
    simp [pairsOf, List.filterMap_cons]
  | (pid, some p) :: rest, st, n, t => by
    simp only [buildAux]
    rw [buildAux_docs rest]
    simp [pairsOf, List.filterMap_cons, setFold]

theorem buildAux_df : ∀ (corpus : List (String × Option Parsed)) (st : BM25Index) (n t : Nat),
    (buildAux st n t corpus).1.df = List.foldl bumpA st.df (termOps corpus)
  | [], st, n, t => by simp [buildAux, termOps, flatMapL]
  | (pid, none) :: rest, st, n, t => by
    show (buildAux st n t rest).1.df = _
    rw [buildAux_df rest st n t]
    simp [termOps, flatMapL]
  | (pid, some p) :: rest, st, n, t => by
    simp only [buildAux]
    rw [buildAux_df rest]
    simp [termOps, flatMapL, List.foldl_append]

theorem buildAux_counts : ∀ (corpus : List (String × Option Parsed)) (st : BM25Index) (n t : Nat),
    (buildAux st n t corpus).2 =
      (n + corpus.countP (fun e => e.2.isSome), t + corpusTokens corpus)
  | [], st, n, t => by simp [buildAux, corpusTokens]
  | (pid, none) :: rest, st, n, t => by
    show (buildAux st n t rest).2 = _
    rw [buildAux_counts rest st n t]
    simp [corpusTokens, List.countP_cons]
  | (pid, some p) :: rest, st, n, t => by
    simp only [buildAux]
    rw [buildAux_counts rest]
    simp [corpusTokens, List.countP_cons, Prod.ext_iff]
    omega

theorem chatTier4_extends : ∀ (bm : List (String × ℚ)) (ch : List Cand)
    (dir : List (String × Option Parsed)),
    ∃ l, chatTier4 ch dir bm = ch ++ l ∧ ∀ c ∈ l, ∀ c0 ∈ ch, c.pid ≠ c0.pid
  | [], ch, dir => ⟨[], by simp [chatTier4], by simp⟩
  | item :: bm, ch, dir => by
    have estep : chatTier4 ch dir (item :: bm) = chatTier4 (chatTier4Step dir ch item) dir bm :=
      rfl
    by_cases hany : (ch.any (fun c => c.pid == item.1)) = true
    · have e : chatTier4 ch dir (item :: bm) = chatTier4 ch dir bm := by
        rw [estep, chatTier4Step, if_pos hany]
      rw [e]
      exact chatTier4_extends bm ch dir
    · cases hlk : lookupParsed dir item.1 with
      | none =>
        have e : chatTier4 ch dir (item :: bm) = chatTier4 ch dir bm := by
          rw [estep, chatTier4Step, if_neg hany, hlk]
        rw [e]
        exact chatTier4_extends bm ch dir
      | some p =>
        have e : chatTier4 ch dir (item :: bm) =
            chatTier4 (ch ++ [⟨item.2, item.1, p.title, (tier4Full p).take 400, tier4Full p⟩])
              dir bm := by
          rw [estep, chatTier4Step, if_neg hany, hlk]
        obtain ⟨l, hl, hcond⟩ :=
          chatTier4_extends bm
            (ch ++ [⟨item.2, item.1, p.title, (tier4Full p).take 400, tier4Full p⟩]) dir
        refine ⟨(⟨item.2, item.1, p.title, (tier4Full p).take 400, tier4Full p⟩ : Cand) :: l,
          ?_, ?_⟩
        · rw [e, hl]
          simp
        · intro c hc c0 hc0
          rcases List.mem_cons.mp hc with rfl | hc
          · rw [List.any_eq_true] at hany
            push_neg at hany
            have := hany c0 hc0
            intro he
            exact this (by simp [← he])
          · exact hcond c hc c0 (List.mem_append_left _ hc0)

theorem score_eq (self : BM25Index) (log : ℚ → ℚ) (query : String) (k1 b : ℚ) (top_k : Nat) :
    self.score log query k1 b top_k =
      if ((tokenize query).filter (fun t => 0 < t.length)).isEmpty || decide (self.N = 0) then []
      else (sortDescBy Prod.snd (bm25Entries log self
        ((tokenize query).filter (fun t => 0 < t.length)) k1 b)).take top_k := rfl

theorem setFold_twice {β : Type} (ps : List (String × β)) (hnd : (ps.map Prod.fst).Nodup) :
    setFold (setFold [] ps) ps = setFold [] ps := by
  have e : setFold ([] : List (String × β)) ps = ps := by
    rw [setFold_new ps [] (by simp) hnd]
    simp
  rw [e]
  exact setFold_id ps ps (fun kv hkv => lookupA_mem_nodup ps kv hkv hnd)

theorem buildAux_counts0 (corpus : List (String × Option Parsed)) (st : BM25Index) :
    (buildAux st 0 0 corpus).2 = (corpus.countP (fun e => e.2.isSome), corpusTokens corpus) := by
  rw [buildAux_counts]
  simp

/-- C1: the claim says Tier 1 scans every document and keeps exactly those
with positive keyword/synonym/token score.  In the code, the synonym loop
evaluates the name `SYNONYMS`, which is local to the `/search` endpoint and
unbound in `chat`, so every document raises `NameError` and is skipped by the
per-document handler: Tier 1 produces no candidate for any corpus and any
query.  The second conjunct shows the intended score (with the `/search`
synonym map in scope) is positive on the spec's own §8 scenario document for
the query "휴학", so that document should have been kept. -/
theorem C1_tier1_name_error :
    (∀ (corpus : List (String × Option Parsed)) (ql : String), chatTier1 corpus ql = []) ∧
    0 < tier1ScoreWith SYNONYMS specDocA "휴학" := by
  constructor
  · intro corpus ql
    apply List.filterMap_eq_nil_iff.mpr
    intro e _
    obtain ⟨pid, mp⟩ := e
    cases mp
    · rfl
    · rfl
  · decide

/-- C2 counterexample: on the corpus `c2corpus` and the lowercased query
"누구 관리자", Tier 2 adds document "d1" (token "관리자" occurs in its body);
Tier 3 then runs (the query contains the marker "누구") and appends "d1"
again, so after Tier 3 the candidate list contains doc_id "d1" twice — a
later tier re-added a doc_id that was already present, contradicting the
claim. -/
theorem C2_counterexample :
    ((chatTier2 (chatTier1 c2corpus "누구 관리자") c2corpus "누구 관리자").map Cand.pid
      = ["d1"]) ∧
    (((chatTier3 (chatTier2 (chatTier1 c2corpus "누구 관리자") c2corpus "누구 관리자")
        c2corpus "누구 관리자").map Cand.pid).count "d1" = 2) := by decide

/-- C2 amended: tiers only ever append — each tier's output extends its input
list — and Tier 4 (BM25 supplementation) never adds a doc_id already present
in `chosen`; but Tier 3 performs no such check and may re-add present
doc_ids (see the counterexample). -/
theorem C2_amended (cands chosen : List Cand) (corpus dir : List (String × Option Parsed))
    (ql : String) (bm : List (String × ℚ)) :
    (∃ l, chatTier2 cands corpus ql = cands ++ l) ∧
    (∃ l, chatTier3 cands corpus ql = cands ++ l) ∧
    (∃ l, chatTier4 chosen dir bm = chosen ++ l ∧
      ∀ c ∈ l, ∀ c0 ∈ chosen, c.pid ≠ c0.pid) := by
  refine ⟨?_, ⟨tier3adds corpus ql, rfl⟩, chatTier4_extends bm chosen dir⟩
  unfold chatTier2
  split
  · exact ⟨tier2adds corpus ql, rfl⟩
  · exact ⟨[], by simp⟩

/-- C3 amended: the list returned by `BM25Index.score` is sorted
non-increasing by score (for any index state, query, parameters and any
`log`); ties, however, preserve the order in which the documents appear in
the index's `tf` table (Python's stable sort), not ascending document id —
see the counterexample. -/
theorem C3_amended (self : BM25Index) (log : ℚ → ℚ) (query : String) (k1 b : ℚ)
    (top_k : Nat) :
    (self.score log query k1 b top_k).Pairwise (fun x y => y.2 ≤ x.2) := by
  rw [score_eq]
  split
  · exact List.Pairwise.nil
  · exact List.Pairwise.sublist (List.take_sublist _ _) (pairwise_sortDescBy Prod.snd _)

/-- C4: the claim says that when the candidate list is still empty after
Tier 4, Tier 5 turns each of the Lexical Index's top results into a
candidate carrying the index score.  The code unpacks the `(pid, score)`
pairs in reverse (`for score, pid in bm`), names the opened file after the
numeric score, fails to open it, and skips every item: with an index hit
`("123", 5)` and the parsed store containing document "123", Tier 5 still
produces no candidate at all. -/
theorem C4_tier5_swapped :
    chatTier5 c4dir [("123", 5)] = [] ∧ (lookupParsed c4dir "123").isSome = true := by decide

/-- C5 counterexample: rebuilding from the unchanged one-document corpus
`c5corpus` does not reproduce the same `df`: `build` bumps the existing
`df` counts without resetting them, so every document frequency doubles. -/
theorem C5_counterexample :
    ((BM25Index.empty.build c5corpus).build c5corpus).df
      ≠ (BM25Index.empty.build c5corpus).df := by decide

/-- C5 amended: for an unchanged corpus (with distinct document ids, as
directory listings give), building twice yields the same `N`, `avgdl`,
`doc_len` (and `tf`, `docs`) as building once, but every `df` entry is
doubled, because `build` accumulates into the existing `df`. -/
theorem C5_amended (corpus : List (String × Option Parsed))
    (h : (corpus.map Prod.fst).Nodup) :
    ((BM25Index.empty.build corpus).build corpus).N = (BM25Index.empty.build corpus).N ∧
    ((BM25Index.empty.build corpus).build corpus).avgdl
      = (BM25Index.empty.build corpus).avgdl ∧
    ((BM25Index.empty.build corpus).build corpus).doc_len
      = (BM25Index.empty.build corpus).doc_len ∧
    ((BM25Index.empty.build corpus).build corpus).tf = (BM25Index.empty.build corpus).tf ∧
    ((BM25Index.empty.build corpus).build corpus).docs
      = (BM25Index.empty.build corpus).docs ∧
    ∀ t, lookupA ((BM25Index.empty.build corpus).build corpus).df t
      = (lookupA (BM25Index.empty.build corpus).df t).map (fun v => 2 * v) := by
  have key : ∀ {β : Type} (f : Parsed → β),
      setFold (setFold [] (pairsOf f corpus)) (pairsOf f corpus)
        = setFold [] (pairsOf f corpus) := by
    intro β f
    have hnd : ((pairsOf f corpus).map Prod.fst).Nodup :=
      List.Nodup.sublist (pairsOf_keys_sublist f corpus) h
    exact setFold_twice _ hnd
  have hN : ∀ (X : BM25Index), (X.build corpus).N = corpus.countP (fun e => e.2.isSome) := by
    intro X
    have e : (X.build corpus).N = (buildAux X 0 0 corpus).2.1 := rfl
    rw [e, buildAux_counts0]
  have havg : ∀ (X : BM25Index), (X.build corpus).avgdl =
      if corpus.countP (fun e => e.2.isSome) = 0 then (0 : ℚ)
      else ((corpusTokens corpus : Nat) : ℚ) / ((corpus.countP (fun e => e.2.isSome) : Nat) : ℚ) := by
    intro X
    have e : (X.build corpus).avgdl =
        if (buildAux X 0 0 corpus).2.1 = 0 then (0 : ℚ)
        else ((buildAux X 0 0 corpus).2.2 : ℚ) / ((buildAux X 0 0 corpus).2.1 : ℚ) := rfl
    rw [e, buildAux_counts0]
  refine ⟨by rw [hN, hN], by rw [havg, havg], ?_, ?_, ?_, ?_⟩
  · have e1 := buildAux_doc_len corpus BM25Index.empty 0 0
    have e2 := buildAux_doc_len corpus (BM25Index.empty.build corpus) 0 0
    have g1 : (BM25Index.empty.build corpus).doc_len
        = setFold [] (pairsOf (fun p => (tokenize (docText p)).length) corpus) := e1
    have g2 : ((BM25Index.empty.build corpus).build corpus).doc_len
        = setFold (BM25Index.empty.build corpus).doc_len
            (pairsOf (fun p => (tokenize (docText p)).length) corpus) := e2
    rw [g2, g1]
    exact key _
  · have e1 := buildAux_tf corpus BM25Index.empty 0 0
    have e2 := buildAux_tf corpus (BM25Index.empty.build corpus) 0 0
    have g1 : (BM25Index.empty.build corpus).tf
        = setFold [] (pairsOf (fun p => mkFreqs (tokenize (docText p))) corpus) := e1
    have g2 : ((BM25Index.empty.build corpus).build corpus).tf
        = setFold (BM25Index.empty.build corpus).tf
            (pairsOf (fun p => mkFreqs (tokenize (docText p))) corpus) := e2
    rw [g2, g1]
    exact key _
  · have e1 := buildAux_docs corpus BM25Index.empty 0 0
    have e2 := buildAux_docs corpus (BM25Index.empty.build corpus) 0 0
    have g1 : (BM25Index.empty.build corpus).docs
        = setFold [] (pairsOf (fun p => p.title) corpus) := e1
    have g2 : ((BM25Index.empty.build corpus).build corpus).docs
        = setFold (BM25Index.empty.build corpus).docs (pairsOf (fun p => p.title) corpus) := e2
    rw [g2, g1]
    exact key _
  · have hdf1 : (BM25Index.empty.build corpus).df = List.foldl bumpA [] (termOps corpus) :=
      buildAux_df corpus BM25Index.empty 0 0
    have hdf2 : ((BM25Index.empty.build corpus).build corpus).df
        = List.foldl bumpA (BM25Index.empty.build corpus).df (termOps corpus) :=
      buildAux_df corpus (BM25Index.empty.build corpus) 0 0
    intro t
    by_cases hn : lookupA (BM25Index.empty.build corpus).df t = none
    · have h0 : countK t (termOps corpus) = 0 := by
        have hx := (lookupA_none_bumpFold (termOps corpus) [] t).mp (by rw [← hdf1]; exact hn)
        exact hx.2
      have hb2 : lookupA ((BM25Index.empty.build corpus).build corpus).df t = none := by
        rw [hdf2]
        exact (lookupA_none_bumpFold (termOps corpus) (BM25Index.empty.build corpus).df t).mpr
          ⟨hn, h0⟩
      rw [hb2, hn]
      rfl
    · obtain ⟨v, hv⟩ := Option.ne_none_iff_exists'.mp hn
      have hv2 : v = countK t (termOps corpus) := by
        have hD := lookupD_bumpFold (termOps corpus) [] t
        rw [← hdf1, hv] at hD
        simpa [lookupA] using hD
      have hb2ne : lookupA ((BM25Index.empty.build corpus).build corpus).df t ≠ none := by
        rw [hdf2]
        intro hc
        exact hn ((lookupA_none_bumpFold (termOps corpus)
          (BM25Index.empty.build corpus).df t).mp hc).1
      obtain ⟨w, hw⟩ := Option.ne_none_iff_exists'.mp hb2ne
      have hw2 : w = v + countK t (termOps corpus) := by
        have hD := lookupD_bumpFold (termOps corpus) (BM25Index.empty.build corpus).df t
        rw [← hdf2, hw, hv] at hD
        simpa using hD
      have hwv : w = 2 * v := by omega
      rw [hw, hv, hwv]
      rfl

/-- Witness for C5 amended at the concrete corpus `c5corpus`: the id list is
duplicate-free, and the rebuilt `df` entry of the term "w" is twice the
original. -/
theorem C5_amended_witness :
    (c5corpus.map Prod.fst).Nodup ∧
    lookupA ((BM25Index.empty.build c5corpus).build c5corpus).df "w"
      = (lookupA (BM25Index.empty.build c5corpus).df "w").map (fun v => 2 * v) :=
  ⟨by decide, (C5_amended c5corpus (by decide)).2.2.2.2.2 "w"⟩

/-- C6: after `build`, `N` is the number of successfully parsed (indexed)
documents, and `avgdl` is the total token count over those documents divided
by `N`, or `0` when `N = 0` — for any starting index state and any corpus. -/
theorem C6_avgdl (self : BM25Index) (corpus : List (String × Option Parsed)) :
    (self.build corpus).N = corpus.countP (fun e => e.2.isSome) ∧
    (self.build corpus).avgdl =
      if (self.build corpus).N = 0 then (0 : ℚ)
      else ((corpusTokens corpus : Nat) : ℚ) / (((self.build corpus).N : Nat) : ℚ) := by
  have hN : (self.build corpus).N = corpus.countP (fun e => e.2.isSome) := by
    have e : (self.build corpus).N = (buildAux self 0 0 corpus).2.1 := rfl
    rw [e, buildAux_counts0]
  refine ⟨hN, ?_⟩
  have e : (self.build corpus).avgdl =
      if (buildAux self 0 0 corpus).2.1 = 0 then (0 : ℚ)
      else ((buildAux self 0 0 corpus).2.2 : ℚ) / ((buildAux self 0 0 corpus).2.1 : ℚ) := rfl
  rw [e, buildAux_counts0, hN]

/-- C7 counterexample: calling `score` on a never-built, never-loaded index
(the `__init__` state) does not fail: the `N == 0` guard returns the
ordinary empty result, so no Index-Not-Ready error exists in the code. -/
theorem C7_counterexample :
    BM25Index.empty.score logApprox "공지사항" (3/2) (3/4) 5 = [] := by decide

/-- C7 amended: `score` on an index before any successful build or load
(`N = 0`) returns the empty list rather than raising an error, for every
query and parameters; and `get_index` lazily builds the index on first use
when no cache and no persisted snapshot exist. -/
theorem C7_amended (log : ℚ → ℚ) (query : String) (k1 b : ℚ) (top_k : Nat)
    (corpus : List (String × Option Parsed)) :
    BM25Index.empty.score log query k1 b top_k = [] ∧
    get_index none none corpus = BM25Index.empty.build corpus := by
  refine ⟨?_, rfl⟩
  rw [score_eq]
  simp [BM25Index.empty]

/-- C8: source aggregation drops candidates with empty or missing urls, keeps
only the first occurrence of each url (preserving rank order — the result is
a sublist of the input), the retained urls are pairwise distinct, the
displayed list is the first two entries of the full deduplicated list, and
the assembled source list preserves the candidates' order of ids. -/
theorem C8_sources (l : List Src) (u : String) (meta : List (String × Option String))
    (q : String) (chosen : List Cand) :
    List.Sublist (dedupeSources l) l ∧
    (∀ s ∈ dedupeSources l, (truthy s.url).isSome = true) ∧
    ((dedupeSources l).map (fun s => truthy s.url)).Nodup ∧
    ((dedupeSources l).filter (fun s => decide (truthy s.url = some u))
      = (l.filter (fun s => decide (truthy s.url = some u))).take 1) ∧
    displaySources l = (dedupeSources l).take 2 ∧
    (mkSources meta q chosen).map Src.id = chosen.map Cand.pid := by
  refine ⟨dedupeAux_sublist l [], fun s hs => dedupeAux_kept_truthy l [] s hs,
    dedupeAux_urls_nodup l [], dedupeAux_filter_take l u [] (by simp), rfl, ?_⟩
  simp [mkSources, List.map_map]

/-- C9: with no API key, the answer is the blank-line-joined concatenation of
the `[title] excerpt` parts with `llm = False` — but the URL-stripping regex
`r"https?:\\/\\/\\S+"` compiles to literal `http:` `\\` `/` `\\` `/` `\\` plus
one or more literal capital `S` characters, not real URLs, so an `https://`
URL inside an excerpt survives into the returned answer text, contradicting
the claim.  The last conjunct shows the only strings the pattern actually
deletes: `http:\/\/\SS...` forms. -/
theorem C9_url_not_stripped :
    (chatNoKeyResponse c9meta "안내문서 알려줘" c9chosen).1
      = "[공지] 안내문서 https://cse.kku.ac.kr 참고" ∧
    pySubstr (chatNoKeyResponse c9meta "안내문서 알려줘" c9chosen).1 "https://cse.kku.ac.kr"
      = true ∧
    (chatNoKeyResponse c9meta "안내문서 알려줘" c9chosen).2.2 = false ∧
    cleanUrls "참고 http:\\/\\/\\SS 끝" = "참고  끝" := by decide

/-- C10: `BM25Index.score` is total by construction (the embedded guards from
the source replace the length-normalization term by `0` when `avgdl` is `0`
and a zero denominator by `1`); for every index state, query, parameters and
any `log`, it returns at most `top_k` entries, each with a strictly positive
score. -/
theorem C10_score_total (self : BM25Index) (log : ℚ → ℚ) (query : String) (k1 b : ℚ)
    (top_k : Nat) :
    (self.score log query k1 b top_k).length ≤ top_k ∧
    ∀ pr ∈ self.score log query k1 b top_k, 0 < pr.2 := by
  rw [score_eq]
  split
  · constructor
    · simp
    · intro pr hpr
      simp at hpr
  · constructor
    · rw [List.length_take]
      exact min_le_left _ _
    · intro pr hpr
      have h1 := List.Sublist.subset (List.take_sublist _ _) hpr
      rw [mem_sortDescBy] at h1
      simp only [bm25Entries, List.mem_filterMap] at h1
      obtain ⟨pf, hpf, heq⟩ := h1
      split at heq
      · rename_i hs
        injection heq with h2
        rw [← h2]
        exact hs
      · cases heq

/-- C3 counterexample: build from a corpus whose two identical documents are
listed as "b" then "a".  The query "z" gives both documents the same strictly
positive score (5/21 under the sign-faithful `logApprox` stand-in for
`math.log`), and the result lists "b" before "a" — Python's stable sort keeps
the `tf` insertion order on ties — so equal scores are not ordered by
ascending document id as the claim states (ascending would be ["a", "b"]). -/
theorem C3_counterexample :
    ((BM25Index.empty.build c3corpus).score logApprox "z" (3/2) (3/4) 5).map Prod.fst
      = ["b", "a"] ∧
    ((BM25Index.empty.build c3corpus).score logApprox "z" (3/2) (3/4) 5).map Prod.snd
      = [5/21, 5/21] := by
  have hN : (BM25Index.empty.build c3corpus).N = 2 := by decide
  have htf : (BM25Index.empty.build c3corpus).tf = [("b", [("z", 2)]), ("a", [("z", 2)])] := by
    decide
  have hdl : (BM25Index.empty.build c3corpus).doc_len = [("b", 2), ("a", 2)] := by decide
  have hdf : (BM25Index.empty.build c3corpus).df = [("z", 2)] := by decide
  have havg : (BM25Index.empty.build c3corpus).avgdl = 2 := by
    have e : (BM25Index.empty.build c3corpus).avgdl =
        if (buildAux BM25Index.empty 0 0 c3corpus).2.1 = 0 then (0 : ℚ)
        else ((buildAux BM25Index.empty 0 0 c3corpus).2.2 : ℚ) /
          ((buildAux BM25Index.empty 0 0 c3corpus).2.1 : ℚ) := rfl
    have hc : c3corpus.countP (fun e => e.2.isSome) = 2 := by decide
    have ht : corpusTokens c3corpus = 4 := by decide
    rw [e, buildAux_counts0, hc, ht]
    norm_num
  have l1 : lookupA [("b", (2 : Nat)), ("a", 2)] "b" = some 2 := by decide
  have l2 : lookupA [("b", (2 : Nat)), ("a", 2)] "a" = some 2 := by decide
  have l3 : lookupA [("z", (2 : Nat))] "z" = some 2 := by decide
  have hsB : bm25DocScore logApprox (BM25Index.empty.build c3corpus) ["z"] (3/2) (3/4)
      ("b", [("z", 2)]) = 5/21 := by
    simp only [bm25DocScore, bm25Idf, List.foldl_cons, List.foldl_nil, hdl, hdf, hN, havg,
      l1, l3, Option.getD_some]
    norm_num [logApprox]
  have hsA : bm25DocScore logApprox (BM25Index.empty.build c3corpus) ["z"] (3/2) (3/4)
      ("a", [("z", 2)]) = 5/21 := by
    simp only [bm25DocScore, bm25Idf, List.foldl_cons, List.foldl_nil, hdl, hdf, hN, havg,
      l2, l3, Option.getD_some]
    norm_num [logApprox]
  have hent : bm25Entries logApprox (BM25Index.empty.build c3corpus) ["z"] (3/2) (3/4)
      = [("b", 5/21), ("a", 5/21)] := by
    simp only [bm25Entries, htf, List.filterMap_cons, List.filterMap_nil]
    rw [hsB, hsA]
    simp only [if_pos (by norm_num : (0 : ℚ) < 5/21)]
  have hq : (tokenize "z").filter (fun t => 0 < t.length) = ["z"] := by decide
  have hsort : sortDescBy Prod.snd [(("b" : String), (5/21 : ℚ)), ("a", 5/21)]
      = [("b", 5/21), ("a", 5/21)] := by
    simp only [sortDescBy, List.foldl_cons, List.foldl_nil, insDescBy]
    rw [if_pos (le_refl (5/21 : ℚ))]
  rw [score_eq, hq, hN]
  rw [show ((["z"] : List String).isEmpty || decide ((2 : Nat) = 0)) = false from by decide]
  rw [if_neg (by decide : ¬ ((false : Bool) = true))]
  rw [hent, hsort]
  constructor
  · rfl
  · rfl
